import Mathlib

/-!
# Verification of the grf-loader GRF archive reader

Shallow embedding of the core of `grf-loader` (a reader for the GRF archive
format of Ragnarok Online) and proofs about it.

Embedded components:
* the custom single-round keyless DES variant (`decryptBlock`), its shuffle
  mode (`shuffleDec`) and the two decryption schedules `decodeHeader`
  (header-only mode) and `decodeFull` (mixed mode), translated from the
  reference implementation reproduced in `esm/index.d.ts` (the `des.ts`
  module);
* the header parser `parseHeader` (v0x200 / v0x300) of `GrfBase`;
* the filename-encoding auto-detector `detectBestKoreanEncoding` of
  `decoder.ts`, with the external text decoders abstracted as oracles;
* the path resolver `resolvePath`, the extraction entry point `getFile`
  and the statistics snapshot `getStats` of `grf-base.ts`.

Bytes are modelled as `Nat` (values < 256 in well-formed inputs), byte
buffers as `List Nat`, and 8-byte cipher blocks as `List Nat` of length 8.
External capabilities (random reads, zlib inflate, text decoders) are
passed as explicit oracle functions.
-/

namespace GrfLoader

/-! ## Custom DES tables (from `des.ts`, reproduced in `esm/index.d.ts` §6.2) -/

/-- Initial permutation, 64 one-based bit positions. -/
def ipTable : List Nat :=
  [58, 50, 42, 34, 26, 18, 10, 2,
   60, 52, 44, 36, 28, 20, 12, 4,
   62, 54, 46, 38, 30, 22, 14, 6,
   64, 56, 48, 40, 32, 24, 16, 8,
   57, 49, 41, 33, 25, 17, 9, 1,
   59, 51, 43, 35, 27, 19, 11, 3,
   61, 53, 45, 37, 29, 21, 13, 5,
   63, 55, 47, 39, 31, 23, 15, 7]

/-- Final permutation, 64 one-based bit positions. -/
def fpTable : List Nat :=
  [40, 8, 48, 16, 56, 24, 64, 32,
   39, 7, 47, 15, 55, 23, 63, 31,
   38, 6, 46, 14, 54, 22, 62, 30,
   37, 5, 45, 13, 53, 21, 61, 29,
   36, 4, 44, 12, 52, 20, 60, 28,
   35, 3, 43, 11, 51, 19, 59, 27,
   34, 2, 42, 10, 50, 18, 58, 26,
   33, 1, 41, 9, 49, 17, 57, 25]

/-- Transposition (P-box), 32 one-based bit positions. -/
def tpTable : List Nat :=
  [16, 7, 20, 21, 29, 12, 28, 17,
   1, 15, 23, 26, 5, 18, 31, 10,
   2, 8, 24, 14, 32, 27, 3, 9,
   19, 13, 30, 6, 22, 11, 4, 25]

/-- S-box 0 (64 bytes). -/
def sbox0 : List Nat :=
  [0xef, 0x03, 0x41, 0xfd, 0xd8, 0x74, 0x1e, 0x47, 0x26, 0xef, 0xfb, 0x22, 0xb3, 0xd8, 0x84, 0x1e,
   0x39, 0xac, 0xa7, 0x60, 0x62, 0xc1, 0xcd, 0xba, 0x5c, 0x96, 0x90, 0x59, 0x05, 0x3b, 0x7a, 0x85,
   0x40, 0xfd, 0x1e, 0xc8, 0xe7, 0x8a, 0x8b, 0x21, 0xda, 0x43, 0x64, 0x9f, 0x2d, 0x14, 0xb1, 0x72,
   0xf5, 0x5b, 0xc8, 0xb6, 0x9c, 0x37, 0x76, 0xec, 0x39, 0xa0, 0xa3, 0x05, 0x52, 0x6e, 0x0f, 0xd9]

/-- S-box 1 (64 bytes). -/
def sbox1 : List Nat :=
  [0xa7, 0xdd, 0x0d, 0x78, 0x9e, 0x0b, 0xe3, 0x95, 0x60, 0x36, 0x36, 0x4f, 0xf9, 0x60, 0x5a, 0xa3,
   0x11, 0x24, 0xd2, 0x87, 0xc8, 0x52, 0x75, 0xec, 0xbb, 0xc1, 0x4c, 0xba, 0x24, 0xfe, 0x8f, 0x19,
   0xda, 0x13, 0x66, 0xaf, 0x49, 0xd0, 0x90, 0x06, 0x8c, 0x6a, 0xfb, 0x91, 0x37, 0x8d, 0x0d, 0x78,
   0xbf, 0x49, 0x11, 0xf4, 0x23, 0xe5, 0xce, 0x3b, 0x55, 0xbc, 0xa2, 0x57, 0xe8, 0x22, 0x74, 0xce]

/-- S-box 2 (64 bytes). -/
def sbox2 : List Nat :=
  [0x2c, 0xea, 0xc1, 0xbf, 0x4a, 0x24, 0x1f, 0xc2, 0x79, 0x47, 0xa2, 0x7c, 0xb6, 0xd9, 0x68, 0x15,
   0x80, 0x56, 0x5d, 0x01, 0x33, 0xfd, 0xf4, 0xae, 0xde, 0x30, 0x07, 0x9b, 0xe5, 0x83, 0x9b, 0x68,
   0x49, 0xb4, 0x2e, 0x83, 0x1f, 0xc2, 0xb5, 0x7c, 0xa2, 0x19, 0xd8, 0xe5, 0x7c, 0x2f, 0x83, 0xda,
   0xf7, 0x6b, 0x90, 0xfe, 0xc4, 0x01, 0x5a, 0x97, 0x61, 0xa6, 0x3d, 0x40, 0x0b, 0x58, 0xe6, 0x3d]

/-- S-box 3 (64 bytes). -/
def sbox3 : List Nat :=
  [0x4d, 0xd1, 0xb2, 0x0f, 0x28, 0xbd, 0xe4, 0x78, 0xf6, 0x4a, 0x0f, 0x93, 0x8b, 0x17, 0xd1, 0xa4,
   0x3a, 0xec, 0xc9, 0x35, 0x93, 0x56, 0x7e, 0xcb, 0x55, 0x20, 0xa0, 0xfe, 0x6c, 0x89, 0x17, 0x62,
   0x17, 0x62, 0x4b, 0xb1, 0xb4, 0xde, 0xd1, 0x87, 0xc9, 0x14, 0x3c, 0x4a, 0x7e, 0xa8, 0xe2, 0x7d,
   0xa0, 0x9f, 0xf6, 0x5c, 0x6a, 0x09, 0x8d, 0xf0, 0x0f, 0xe3, 0x53, 0x25, 0x95, 0x36, 0x28, 0xcb]

/-- Bit masks, MSB first: `mask[k] = 0x80 >> k`. -/
def maskTable : List Nat := [0x80, 0x40, 0x20, 0x10, 0x08, 0x04, 0x02, 0x01]

/-! ## Block decryption (`decrypt_block` of `des.ts`) -/

/-- Bitwise permutation of an 8-byte block by a 64-entry one-based table
(`BitConvert` in the reference): output bit `lop` is set when input bit
`table[lop] - 1` is set, bits numbered MSB-first within each byte. -/
def bitConvert (tbl : List Nat) (src : List Nat) : List Nat :=
  (List.range 8).map fun bi =>
    (List.range 8).foldl
      (fun acc k =>
        let lop := bi * 8 + k
        let prm := tbl.getD lop 1 - 1
        if (src.getD (prm / 8) 0) &&& (maskTable.getD (prm % 8) 0) ≠ 0 then
          acc ||| maskTable.getD k 0
        else acc)
      0

/-- The single round (`BitConvert4` in the reference): expand the right half
`src[4..8]` into eight 6-bit values, substitute through the four S-boxes two
nibbles at a time, transpose the 32-bit result through the P-box, and XOR it
into the left half.  The right half is returned unchanged. -/
def bitConvert4 (src : List Nat) : List Nat :=
  let r0 := src.getD 4 0
  let r1 := src.getD 5 0
  let r2 := src.getD 6 0
  let r3 := src.getD 7 0
  let tmp : List Nat :=
    [((r3 <<< 5) ||| (r0 >>> 3)) &&& 0x3f,
     ((r0 <<< 1) ||| (r1 >>> 7)) &&& 0x3f,
     ((r0 <<< 5) ||| (r1 >>> 3)) &&& 0x3f,
     ((r1 <<< 1) ||| (r2 >>> 7)) &&& 0x3f,
     ((r1 <<< 5) ||| (r2 >>> 3)) &&& 0x3f,
     ((r2 <<< 1) ||| (r3 >>> 7)) &&& 0x3f,
     ((r2 <<< 5) ||| (r3 >>> 3)) &&& 0x3f,
     ((r3 <<< 1) ||| (r0 >>> 7)) &&& 0x3f]
  let nib : List Nat :=
    [(sbox0.getD (tmp.getD 0 0) 0 &&& 0xf0) ||| (sbox0.getD (tmp.getD 1 0) 0 &&& 0x0f),
     (sbox1.getD (tmp.getD 2 0) 0 &&& 0xf0) ||| (sbox1.getD (tmp.getD 3 0) 0 &&& 0x0f),
     (sbox2.getD (tmp.getD 4 0) 0 &&& 0xf0) ||| (sbox2.getD (tmp.getD 5 0) 0 &&& 0x0f),
     (sbox3.getD (tmp.getD 6 0) 0 &&& 0xf0) ||| (sbox3.getD (tmp.getD 7 0) 0 &&& 0x0f)]
  let tp : List Nat :=
    (List.range 4).map fun bi =>
      (List.range 8).foldl
        (fun acc k =>
          let lop := bi * 8 + k
          let prm := tpTable.getD lop 1 - 1
          if (nib.getD (prm / 8) 0) &&& (maskTable.getD (prm % 8) 0) ≠ 0 then
            acc ||| maskTable.getD k 0
          else acc)
        0
  [src.getD 0 0 ^^^ tp.getD 0 0,
   src.getD 1 0 ^^^ tp.getD 1 0,
   src.getD 2 0 ^^^ tp.getD 2 0,
   src.getD 3 0 ^^^ tp.getD 3 0,
   r0, r1, r2, r3]

/-- One-block decryption: IP, one round, FP. -/
def decryptBlock (b : List Nat) : List Nat :=
  bitConvert fpTable (bitConvert4 (bitConvert ipTable b))

/-! ## Shuffle decode (`shuffleDec` of `des.ts`, `esm/index.d.ts` §6.5) -/

/-- The shuffle substitution table: a 256-byte table where every index maps
to itself, except seven pairs of values that are swapped with each other.
Built, as in the source, by starting from the identity table and overwriting
the fourteen swapped entries. -/
def shuffleDecTableList : List Nat :=
  ((((((((((((((List.range 256).set 0x00 0x2B).set 0x2B 0x00).set
    0x6C 0x80).set 0x80 0x6C).set 0x01 0x68).set 0x68 0x01).set
    0x48 0x77).set 0x77 0x48).set 0x60 0xFF).set 0xFF 0x60).set
    0xB9 0xC0).set 0xC0 0xB9).set 0xFE 0xEB).set 0xEB 0xFE

/-- Shuffle-decode of one 8-byte block: a fixed byte permutation plus the
substitution of byte 7 through the swap table. -/
def shuffleDec (b : List Nat) : List Nat :=
  [b.getD 3 0, b.getD 4 0, b.getD 6 0, b.getD 0 0,
   b.getD 1 0, b.getD 2 0, b.getD 5 0,
   shuffleDecTableList.getD (b.getD 7 0) 0]

/-- Claim-side swap table, written per the specification: the identity on
bytes except the seven bidirectional swaps (0x00,0x2B), (0x6C,0x80),
(0x01,0x68), (0x48,0x77), (0x60,0xFF), (0xB9,0xC0), (0xFE,0xEB). -/
def swapTableClaim (v : Nat) : Nat :=
  if v = 0x00 then 0x2B else if v = 0x2B then 0x00 else
  if v = 0x6C then 0x80 else if v = 0x80 then 0x6C else
  if v = 0x01 then 0x68 else if v = 0x68 then 0x01 else
  if v = 0x48 then 0x77 else if v = 0x77 then 0x48 else
  if v = 0x60 then 0xFF else if v = 0xFF then 0x60 else
  if v = 0xB9 then 0xC0 else if v = 0xC0 then 0xB9 else
  if v = 0xFE then 0xEB else if v = 0xEB then 0xFE else v

set_option maxRecDepth 4096 in
/-- C4: shuffle-decode of one 8-byte block X produces
Y = [X3, X4, X6, X0, X1, X2, X5, swap(X7)], and the swap table is the
256-byte identity except for the seven bidirectional swaps
(0x00,0x2B), (0x6C,0x80), (0x01,0x68), (0x48,0x77), (0x60,0xFF),
(0xB9,0xC0), (0xFE,0xEB). -/
theorem shuffleDec_spec :
    (∀ x0 x1 x2 x3 x4 x5 x6 x7 : Nat,
        shuffleDec [x0, x1, x2, x3, x4, x5, x6, x7] =
          [x3, x4, x6, x0, x1, x2, x5, shuffleDecTableList.getD x7 0]) ∧
      ((List.range 256).all
        (fun v => shuffleDecTableList.getD v 0 == swapTableClaim v)) = true := by
  constructor
  · intro x0 x1 x2 x3 x4 x5 x6 x7
    rfl
  · decide

/-! ## Decryption schedules (`decodeHeader`, `decodeFull` of `des.ts`)

The source mutates the byte array `src` in place, one 8-byte block at a
time (`decryptBlock(src, i * 8)`).  Here the payload is a list of 8-byte
blocks and each loop is a structural recursion over that list carrying the
block index (and, for the mixed mode, the counter `j`). -/

/-- Header-only mode loop body: for block index `i`, DES-decrypt when
`i < 20 && i < count`, leave the block unchanged otherwise. -/
def decodeHeaderLoop (count : Nat) (i : Nat) : List (List Nat) → List (List Nat)
  | [] => []
  | b :: rest =>
    (if i < 20 ∧ i < count then decryptBlock b else b) ::
      decodeHeaderLoop count (i + 1) rest

/-- `decodeHeader(src, length)`: DES-decrypt the first
`min(20, length >> 3)` blocks, leave the rest verbatim. -/
def decodeHeader (blocks : List (List Nat)) (len : Nat) : List (List Nat) :=
  decodeHeaderLoop (len / 8) 0 blocks

/-- Number of decimal digits of `n`, i.e. `n.toString().length` in the
source (for the non-negative sizes of well-formed archives). -/
def numDigits (n : Nat) : Nat := Nat.log 10 n + 1

/-- The mixed-mode cycle, from the source's conditional chain
`digits < 3 ? 1 : digits < 5 ? digits + 1 : digits < 7 ? digits + 9 :
digits + 15` over the decimal length of the compressed size. -/
def desCycle (compressedSize : Nat) : Nat :=
  let digits := numDigits compressedSize
  if digits < 3 then 1
  else if digits < 5 then digits + 1
  else if digits < 7 then digits + 9
  else digits + 15

/-- Mixed-mode loop over all block indices.  For `i < min 20 nblocks` the
block is DES-decrypted (the source's first `for` loop); for
`20 ≤ i < nblocks` the source's second loop applies: on `i % cycle == 0`
DES-decrypt and `continue` (so `j` is not advanced), otherwise `++j` and,
when the JS condition `++j && j % 7 === 0` holds (the incremented `j` is
truthy, i.e. nonzero, and divisible by 7), shuffle-decode the block. -/
def decodeFullLoop (cycle nblocks : Nat) (i : Nat) (j : Int) :
    List (List Nat) → List (List Nat)
  | [] => []
  | b :: rest =>
    if nblocks ≤ i then b :: decodeFullLoop cycle nblocks (i + 1) j rest
    else if i < 20 then decryptBlock b :: decodeFullLoop cycle nblocks (i + 1) j rest
    else if i % cycle = 0 then
      decryptBlock b :: decodeFullLoop cycle nblocks (i + 1) j rest
    else
      (if j + 1 ≠ 0 ∧ (j + 1) % 7 = 0 then shuffleDec b else b) ::
        decodeFullLoop cycle nblocks (i + 1) (j + 1) rest

/-- `decodeFull(src, length, entryLength)`: the mixed-mode cipher over
`length >> 3` blocks with the cycle computed from the compressed size. -/
def decodeFull (blocks : List (List Nat)) (len compressedSize : Nat) :
    List (List Nat) :=
  decodeFullLoop (desCycle compressedSize) (len / 8) 0 (-1) blocks

/-! ## Claim-side formulations of the cipher schedules -/

/-- Claim-side cycle table: digits < 3 gives 1, 3-4 gives digits + 1,
5-6 gives digits + 9, at least 7 gives digits + 15. -/
def cycleClaim (compressedSize : Nat) : Nat :=
  let d := numDigits compressedSize
  if d < 3 then 1
  else if d = 3 ∨ d = 4 then d + 1
  else if d = 5 ∨ d = 6 then d + 9
  else d + 15

/-- Claim-side mixed-mode loop, following the claim's wording: blocks `0`
through `min(20, nblocks) - 1` are DES-decrypted; for a block index
`i ≥ 20` (below `nblocks`), with a counter `j` starting at `-1`: if
`i mod cycle = 0` the block is DES-decrypted and `j` is not advanced,
otherwise `j` is incremented and shuffle-decode is applied exactly when
the new `j` is a nonzero multiple of 7. -/
def decodeFullClaimLoop (cycle nblocks : Nat) (i : Nat) (j : Int) :
    List (List Nat) → List (List Nat)
  | [] => []
  | b :: rest =>
    if i < min 20 nblocks then
      decryptBlock b :: decodeFullClaimLoop cycle nblocks (i + 1) j rest
    else if i < nblocks then
      if i % cycle = 0 then
        decryptBlock b :: decodeFullClaimLoop cycle nblocks (i + 1) j rest
      else
        (if j + 1 ≠ 0 ∧ (7 : Int) ∣ (j + 1) then shuffleDec b else b) ::
          decodeFullClaimLoop cycle nblocks (i + 1) (j + 1) rest
    else b :: decodeFullClaimLoop cycle nblocks (i + 1) j rest

/-- Claim-side mixed-mode cipher. -/
def decodeFullClaim (blocks : List (List Nat)) (len compressedSize : Nat) :
    List (List Nat) :=
  decodeFullClaimLoop (cycleClaim compressedSize) (len / 8) 0 (-1) blocks

/-- The two cycle computations agree. -/
theorem desCycle_eq_cycleClaim (n : Nat) : desCycle n = cycleClaim n := by
  unfold desCycle cycleClaim
  simp only []
  split_ifs <;> omega

/-- The two mixed-mode loops agree, for every starting index and counter. -/
theorem decodeFullLoop_eq_claimLoop (cycle nblocks : Nat) :
    ∀ (blocks : List (List Nat)) (i : Nat) (j : Int),
      decodeFullLoop cycle nblocks i j blocks =
        decodeFullClaimLoop cycle nblocks i j blocks := by
  intro blocks
  induction blocks with
  | nil => intro i j; rfl
  | cons b rest ih =>
    intro i j
    unfold decodeFullLoop decodeFullClaimLoop
    rcases Nat.lt_or_ge i nblocks with hlt | hge
    · have h1 : ¬ nblocks ≤ i := by omega
      rcases Nat.lt_or_ge i 20 with h20 | h20
      · have hmin : i < min 20 nblocks := by omega
        rw [if_neg h1, if_pos h20, if_pos hmin, ih]
      · have hmin : ¬ i < min 20 nblocks := by omega
        have h20n : ¬ i < 20 := by omega
        rw [if_neg h1, if_neg h20n, if_neg hmin, if_pos hlt]
        by_cases hc : i % cycle = 0
        · rw [if_pos hc, if_pos hc, ih]
        · rw [if_neg hc, if_neg hc, ih]
          by_cases hj0 : j + 1 = 0
          · rw [if_neg (by simp [hj0]), if_neg (by simp [hj0])]
          · by_cases hj7 : (j + 1) % 7 = 0
            · rw [if_pos ⟨hj0, hj7⟩, if_pos ⟨hj0, Int.dvd_of_emod_eq_zero hj7⟩]
            · rw [if_neg (fun h => hj7 h.2),
                if_neg (fun h => hj7 (Int.emod_eq_zero_of_dvd h.2))]
    · have h2 : ¬ i < min 20 nblocks := by omega
      have h3 : ¬ i < nblocks := by omega
      rw [if_pos hge, if_neg h2, if_neg h3, ih]

/-- C3: the mixed-mode cipher follows the claimed schedule: the cycle is
the claimed function of the decimal digit count of the compressed size,
blocks 0 through min(20, nblocks) - 1 are DES-decrypted, and for block
index i ≥ 20 with counter j starting at -1, a block at a cycle multiple is
DES-decrypted without advancing j, and otherwise j is incremented and
shuffle-decode applied exactly when the new j is a nonzero multiple of 7. -/
theorem decodeFull_matches_claim :
    (∀ (blocks : List (List Nat)) (len compressedSize : Nat),
        decodeFull blocks len compressedSize =
          decodeFullClaim blocks len compressedSize) ∧
      ∀ n, desCycle n = cycleClaim n := by
  refine ⟨fun blocks len compressedSize => ?_, desCycle_eq_cycleClaim⟩
  unfold decodeFull decodeFullClaim
  rw [desCycle_eq_cycleClaim, decodeFullLoop_eq_claimLoop]

/-- Pointwise description of `decodeHeaderLoop`. -/
theorem decodeHeaderLoop_get? (count : Nat) :
    ∀ (blocks : List (List Nat)) (i0 i : Nat),
      (decodeHeaderLoop count i0 blocks).get? i =
        if i0 + i < 20 ∧ i0 + i < count then (blocks.get? i).map decryptBlock
        else blocks.get? i := by
  intro blocks
  induction blocks with
  | nil => intro i0 i; simp [decodeHeaderLoop]
  | cons b rest ih =>
    intro i0 i
    cases i with
    | zero =>
      simp only [decodeHeaderLoop, List.get?, Nat.add_zero]
      by_cases h : i0 < 20 ∧ i0 < count
      · rw [if_pos h, if_pos h]
        rfl
      · rw [if_neg h, if_neg h]
    | succ n =>
      simp only [decodeHeaderLoop, List.get?]
      rw [ih (i0 + 1) n]
      simp only [show i0 + 1 + n = i0 + (n + 1) from by omega]

/-- C5: header-only mode DES-decrypts exactly the first
`min(20, length_aligned / 8)` blocks and returns every later block
verbatim. -/
theorem decodeHeader_spec (blocks : List (List Nat)) (len i : Nat) :
    (decodeHeader blocks len).get? i =
      if i < min 20 (len / 8) then (blocks.get? i).map decryptBlock
      else blocks.get? i := by
  unfold decodeHeader
  rw [decodeHeaderLoop_get? (len / 8) blocks 0 i]
  simp only [Nat.zero_add, Nat.lt_min]

/-! ## Header parser (`parseHeader` of `GrfBase`)

The 46-byte header is a list of bytes; `u32At` is the little-endian u32
read of the `jDataview` reader (constructed with little-endian flag). -/

/-- Little-endian u32 at byte offset `i`. -/
def u32At (b : List Nat) (i : Nat) : Nat :=
  b.getD i 0 + 256 * b.getD (i + 1) 0 + 65536 * b.getD (i + 2) 0 +
    16777216 * b.getD (i + 3) 0

/-- The ASCII bytes of the 15-character signature string. -/
def headerSignatureBytes : List Nat :=
  (String.toList "Master of Magic").map Char.toNat

/-- `reader.getString(15) === HEADER_SIGNATURE`. -/
def signatureOk (hdr : List Nat) : Prop :=
  (List.range 15).map (fun k => hdr.getD k 0) = headerSignatureBytes

instance (hdr : List Nat) : Decidable (signatureOk hdr) := by
  unfold signatureOk
  infer_instance

/-- Error codes of `GrfError` (`GRF_ERROR_CODES`). -/
inductive GrfErrorCode where
  | INVALID_MAGIC
  | UNSUPPORTED_VERSION
  | NOT_LOADED
  | FILE_NOT_FOUND
  | AMBIGUOUS_PATH
  | DECOMPRESS_FAIL
  | CORRUPT_TABLE
  | LIMIT_EXCEEDED
  | INVALID_OFFSET
  | DECRYPT_REQUIRED
  deriving DecidableEq, Repr

/-- The fields `parseHeader` stores on the archive object.  `fileCount` is
a JS number that the v0x200 formula can drive negative, hence `Int`. -/
structure ParsedHeader where
  version : Nat
  fileTableOffset : Nat
  fileCount : Int
  deriving DecidableEq, Repr

/-- `parseHeader`: verify the signature, peek the version at byte 42,
accept only 0x200 and 0x300, then parse the version-dependent payload at
bytes 30..42.  For 0x300 the GRFEditor heuristic falls back to 0x200
parsing when the upper three bytes of the high word are nonzero.
Finally validate the entry count against `maxEntries`. -/
def parseHeader (maxEntries : Nat) (hdr : List Nat) :
    Except GrfErrorCode ParsedHeader :=
  if ¬ signatureOk hdr then .error .INVALID_MAGIC
  else
    let version := u32At hdr 42
    if version ≠ 0x200 ∧ version ≠ 0x300 then .error .UNSUPPORTED_VERSION
    else
      let parsed : ParsedHeader :=
        if version = 0x200 then
          { version := 0x200
            fileTableOffset := u32At hdr 30 + 46
            fileCount := (u32At hdr 38 : Int) - (u32At hdr 34 : Int) - 7 }
        else
          let low := u32At hdr 30
          let high := u32At hdr 34
          if high >>> 8 ≠ 0 then
            { version := 0x200
              fileTableOffset := u32At hdr 30 + 46
              fileCount := (u32At hdr 38 : Int) - (u32At hdr 34 : Int) - 7 }
          else
            { version := 0x300
              fileTableOffset := high * 0x100000000 + low + 46
              fileCount := (u32At hdr 38 : Int) }
      if parsed.fileCount > (maxEntries : Int) then .error .LIMIT_EXCEEDED
      else .ok parsed

/-- The tail of the parser (limit check then success) never produces an
`UNSUPPORTED_VERSION` error. -/
theorem limitOrOk_ne_unsupported (c : Prop) [Decidable c] (p : ParsedHeader) :
    (if c then (Except.error GrfErrorCode.LIMIT_EXCEEDED :
        Except GrfErrorCode ParsedHeader) else .ok p) ≠
      .error .UNSUPPORTED_VERSION := by
  split <;> simp

/-- C2: for every archive whose signature matches, the version is read as
a little-endian u32 at byte offset 42; `parseHeader` fails with
`UNSUPPORTED_VERSION` exactly when that value is neither 0x200 nor
0x300. -/
theorem parseHeader_version_check (maxEntries : Nat) (hdr : List Nat)
    (hsig : signatureOk hdr) :
    (parseHeader maxEntries hdr = .error .UNSUPPORTED_VERSION ↔
      (u32At hdr 42 ≠ 0x200 ∧ u32At hdr 42 ≠ 0x300)) := by
  unfold parseHeader
  rw [if_neg (by simpa using hsig)]
  by_cases hv : u32At hdr 42 ≠ 0x200 ∧ u32At hdr 42 ≠ 0x300
  · rw [if_pos hv]
    exact ⟨fun _ => hv, fun _ => rfl⟩
  · rw [if_neg hv]
    exact ⟨fun h => absurd h (limitOrOk_ne_unsupported _ _),
      fun h => absurd h hv⟩

/-- A concrete valid v0x200 header: signature, 15 zero key bytes, stored
table offset 0, reserved 0, raw count 8, version 0x200. -/
def hdr200 : List Nat :=
  headerSignatureBytes ++ List.replicate 15 0 ++
    [0, 0, 0, 0, 0, 0, 0, 0, 8, 0, 0, 0, 0, 2, 0, 0]

/-- Witness for C2: the concrete v0x200 header is accepted (its version
check does not fail), instantiating the theorem. -/
theorem parseHeader_version_check_witness :
    signatureOk hdr200 ∧
      parseHeader 500000 hdr200 ≠ .error .UNSUPPORTED_VERSION := by
  refine ⟨by decide, fun h => ?_⟩
  have := (parseHeader_version_check 500000 hdr200 (by decide)).mp h
  exact absurd (by decide : u32At hdr200 42 = 0x200) this.1

/-- C6: for every v0x200 archive (signature valid, version word 0x200)
whose declared count is within the limit, the parser computes the
file-table offset as the u32 at byte 30 plus 46 and the declared file
count as the u32 at byte 38 minus the u32 at byte 34 minus 7. -/
theorem parseHeader_v200_fields (maxEntries : Nat) (hdr : List Nat)
    (hsig : signatureOk hdr) (hver : u32At hdr 42 = 0x200)
    (hcnt : (u32At hdr 38 : Int) - (u32At hdr 34 : Int) - 7 ≤ (maxEntries : Int)) :
    parseHeader maxEntries hdr =
      .ok { version := 0x200
            fileTableOffset := u32At hdr 30 + 46
            fileCount := (u32At hdr 38 : Int) - (u32At hdr 34 : Int) - 7 } := by
  unfold parseHeader
  have hv : ¬ (u32At hdr 42 ≠ 0x200 ∧ u32At hdr 42 ≠ 0x300) :=
    fun h => h.1 hver
  have hlim : ¬ ((maxEntries : Int) <
      (u32At hdr 38 : Int) - (u32At hdr 34 : Int) - 7) := by omega
  rw [if_neg (by simpa using hsig), if_neg hv, if_pos hver, if_neg hlim]

/-- Witness for C6 at the concrete v0x200 header: offset 0 + 46 and
count 8 - 0 - 7 = 1. -/
theorem parseHeader_v200_fields_witness :
    parseHeader 500000 hdr200 =
      .ok { version := 0x200, fileTableOffset := 46, fileCount := 1 } := by
  have h := parseHeader_v200_fields 500000 hdr200 (by decide) (by decide) (by decide)
  simpa using h

/-! ## Loaded archive state, path resolution and extraction
(`grf-base.ts`) -/

/-- `TFileEntry`.  The sizes are read as 32-bit values that are
non-negative in well-formed archives, so they are modelled as `Nat`. -/
structure TFileEntry where
  type : Nat
  offset : Nat
  realSize : Nat
  compressedSize : Nat
  lengthAligned : Nat
  deriving DecidableEq, Repr

def FILELIST_TYPE_FILE : Nat := 0x01
def FILELIST_TYPE_ENCRYPT_MIXED : Nat := 0x02
def FILELIST_TYPE_ENCRYPT_HEADER : Nat := 0x04
def HEADER_SIZE : Nat := 46

/-- `normalizePath`: lowercase the string and turn every backslash into a
forward slash (`path.toLowerCase().replace(/\\/g, '/')`), expressed
character by character. -/
def normalizePath (path : String) : String :=
  String.mk ((path.data.map Char.toLower).map fun c =>
    if c = '\\' then '/' else c)

/-- The queryable part of a loaded `GrfBase` object: the exact-name map,
the normalized index (ordered candidate lists) and the LRU cache's
key-to-bytes map, each modelled as an association list. -/
structure GrfState where
  loaded : Bool
  files : List (String × TFileEntry)
  normalizedIndex : List (String × List String)
  cache : List (String × List Nat)

/-- `ResolveResult`. -/
inductive ResolveResult where
  | found (matchedPath : String)
  | notFound
  | ambiguous (candidates : List String)
  deriving DecidableEq, Repr

/-- `resolvePath`: exact match first, then the normalized bucket
(`not_found` when missing or empty, `found` on a single candidate,
`ambiguous` otherwise). -/
def resolvePath (st : GrfState) (query : String) : ResolveResult :=
  if (st.files.lookup query).isSome then .found query
  else
    match st.normalizedIndex.lookup (normalizePath query) with
    | none => .notFound
    | some [] => .notFound
    | some [c] => .found c
    | some cs => .ambiguous cs

/-- C9: `resolvePath` returns `found` with the query itself on a verbatim
exact-name hit, `found` with the unique candidate when the normalized
bucket holds exactly one name, `ambiguous` with the candidate list when it
holds two or more, and `notFound` in every other case. -/
theorem resolvePath_spec (st : GrfState) (q : String) :
    ((st.files.lookup q).isSome → resolvePath st q = .found q)
    ∧ (¬ (st.files.lookup q).isSome →
        ∀ c, st.normalizedIndex.lookup (normalizePath q) = some [c] →
          resolvePath st q = .found c)
    ∧ (¬ (st.files.lookup q).isSome →
        ∀ cs, st.normalizedIndex.lookup (normalizePath q) = some cs →
          2 ≤ cs.length → resolvePath st q = .ambiguous cs)
    ∧ (¬ (st.files.lookup q).isSome →
        (st.normalizedIndex.lookup (normalizePath q) = none ∨
          st.normalizedIndex.lookup (normalizePath q) = some []) →
          resolvePath st q = .notFound) := by
  refine ⟨fun h => ?_, fun h c hc => ?_, fun h cs hcs hlen => ?_, fun h hb => ?_⟩
  · simp [resolvePath, h]
  · simp [resolvePath, h, hc]
  · rw [resolvePath, if_neg h, hcs]
    match cs, hlen with
    | c1 :: c2 :: rest, _ => rfl
  · rcases hb with hb | hb <;> simp [resolvePath, h, hb]

/-- A tiny loaded state: one file, one normalized bucket. -/
def stOneFile : GrfState :=
  { loaded := true
    files := [("Data\\A.TXT", ⟨1, 0, 75, 75, 75⟩)]
    normalizedIndex := [("data/a.txt", ["Data\\A.TXT"])]
    cache := [] }

/-- Witness for C9: a case-insensitive query resolves through the
normalized bucket of `stOneFile` to its unique candidate. -/
theorem resolvePath_spec_witness :
    resolvePath stOneFile "data\\a.txt" = .found "Data\\A.TXT" :=
  (resolvePath_spec stOneFile "data\\a.txt").2.1 (by decide)
    "Data\\A.TXT" (by decide)

/-! ## Entry extraction (`decodeEntry` / `getFile` of `grf-base.ts`) -/

/-- Split a byte list into its successive 8-byte cipher blocks (the last
block may be shorter when the length is not 8-aligned). -/
def toBlocks (l : List Nat) : List (List Nat) :=
  if _h : l.length = 0 then []
  else l.take 8 :: toBlocks (l.drop 8)
  termination_by l.length
  decreasing_by simp only [List.length_drop]; omega

/-- The decryption stage of `decodeEntry`: mixed mode on type bit 1,
header-only mode on type bit 2, otherwise the bytes are untouched.  The
in-place block mutation of the source becomes chunk, map, flatten. -/
def decipherStage (data : List Nat) (e : TFileEntry) : List Nat :=
  if e.type &&& FILELIST_TYPE_ENCRYPT_MIXED ≠ 0 then
    (decodeFull (toBlocks data) e.lengthAligned e.compressedSize).flatten
  else if e.type &&& FILELIST_TYPE_ENCRYPT_HEADER ≠ 0 then
    (decodeHeader (toBlocks data) e.lengthAligned).flatten
  else data

/-- `decodeEntry`: decrypt, then return the data as-is when
`realSize === compressedSize`, else inflate (which may fail).  The inflate
capability is an oracle; a thrown error is an `Except.error`. -/
def decodeEntry (inflate : List Nat → Except String (List Nat))
    (data : List Nat) (e : TFileEntry) : Except String (List Nat) :=
  let d := decipherStage data e
  if e.realSize = e.compressedSize then .ok d
  else inflate d

/-- The `{data, error}` pair returned by `getFile`. -/
structure GetFileResult where
  data : Option (List Nat)
  error : Option String
  deriving DecidableEq, Repr

def notLoadedMsg : String := "GRF not loaded yet"

def notFoundMsg (filename : String) : String :=
  "File \"" ++ filename ++ "\" not found"

/-- The ambiguous-path message: it quotes the number of matches and at
most the first five candidate names (`candidates.slice(0, 5)`), with a
trailing ellipsis when more exist. -/
def ambiguousMsg (filename : String) (cs : List String) : String :=
  "Ambiguous path \"" ++ filename ++ "\": " ++ toString cs.length ++
    " matches found. Use exact path: " ++
    String.intercalate ", " (cs.take 5) ++
    (if 5 < cs.length then "..." else "")

/-- `getFile`.  The random read of the source is an oracle returning
either the requested bytes or a read error; a read error is awaited
outside the `try` block and therefore propagates (`Except.error`), while
a `decodeEntry` failure is caught and returned as a `{data, error}`
pair. -/
def getFile (read : Nat → Nat → Except String (List Nat))
    (inflate : List Nat → Except String (List Nat))
    (st : GrfState) (filename : String) :
    Except String GetFileResult :=
  if st.loaded = false then .ok ⟨none, some notLoadedMsg⟩
  else
    match resolvePath st filename with
    | .notFound => .ok ⟨none, some (notFoundMsg filename)⟩
    | .ambiguous cs => .ok ⟨none, some (ambiguousMsg filename cs)⟩
    | .found path =>
      match st.cache.lookup path with
      | some cached => .ok ⟨some cached, none⟩
      | none =>
        match st.files.lookup path with
        | none => .ok ⟨none, some (notFoundMsg path)⟩
        | some entry =>
          match read (entry.offset + HEADER_SIZE) entry.lengthAligned with
          | .error e => .error e
          | .ok data =>
            match decodeEntry inflate data entry with
            | .error msg => .ok ⟨none, some msg⟩
            | .ok result => .ok ⟨some result, none⟩

/-- C8 as amended: `getFile` returns a `{data, error}` pair with a null
data field and a non-null message when the archive is not loaded, when
resolution fails, when it is ambiguous (the message listing at most five
candidate names), and when per-entry decryption/inflation fails; it does
not return a pair for every query, however: a read error from the source
during the payload read — awaited outside the `try` block — propagates as
an exception, and that is the only outcome that does. -/
theorem getFile_error_contract (read : Nat → Nat → Except String (List Nat))
    (inflate : List Nat → Except String (List Nat))
    (st : GrfState) (q : String) :
    (st.loaded = false →
        getFile read inflate st q = .ok ⟨none, some notLoadedMsg⟩)
    ∧ (st.loaded = true → resolvePath st q = .notFound →
        getFile read inflate st q = .ok ⟨none, some (notFoundMsg q)⟩)
    ∧ (∀ cs, st.loaded = true → resolvePath st q = .ambiguous cs →
        getFile read inflate st q = .ok ⟨none, some (ambiguousMsg q cs)⟩ ∧
          (cs.take 5).length ≤ 5)
    ∧ (∀ path entry data msg, st.loaded = true →
        resolvePath st q = .found path →
        st.cache.lookup path = none →
        st.files.lookup path = some entry →
        read (entry.offset + HEADER_SIZE) entry.lengthAligned = .ok data →
        decodeEntry inflate data entry = .error msg →
        getFile read inflate st q = .ok ⟨none, some msg⟩)
    ∧ (∀ e, getFile read inflate st q = .error e →
        ∃ path entry, resolvePath st q = .found path ∧
          st.files.lookup path = some entry ∧
          read (entry.offset + HEADER_SIZE) entry.lengthAligned = .error e) := by
  refine ⟨fun h => by rw [getFile, if_pos h],
    fun h hr => by rw [getFile, h]; simp only [Bool.true_eq_false, if_false, hr],
    fun cs h hr =>
      ⟨by rw [getFile, h]; simp only [Bool.true_eq_false, if_false, hr],
        List.length_take_le 5 cs⟩,
    fun path entry data msg h hr hc hf hread hdec => by
      rw [getFile, h]
      simp only [Bool.true_eq_false, if_false, hr, hc, hf, hread, hdec],
    fun e => ?_⟩
  intro hget
  rw [getFile] at hget
  by_cases hl : st.loaded = false
  · rw [if_pos hl] at hget
    exact absurd hget (by simp)
  · rw [if_neg hl] at hget
    rcases hr : resolvePath st q with path | _ | cs
    · simp only [hr] at hget
      rcases hc : st.cache.lookup path with _ | cached
      · simp only [hc] at hget
        rcases hf : st.files.lookup path with _ | entry
        · simp only [hf] at hget
          exact absurd hget (by simp)
        · simp only [hf] at hget
          rcases hread : read (entry.offset + HEADER_SIZE) entry.lengthAligned
            with err | data
          · simp only [hread, Except.error.injEq] at hget
            exact ⟨path, entry, rfl, hf, hget ▸ hread⟩
          · simp only [hread] at hget
            rcases hdec : decodeEntry inflate data entry with msg | result
            · simp only [hdec] at hget
              exact absurd hget (by simp)
            · simp only [hdec] at hget
              exact absurd hget (by simp)
      · simp only [hc] at hget
        exact absurd hget (by simp)
    · simp only [hr] at hget
      exact absurd hget (by simp)
    · simp only [hr] at hget
      exact absurd hget (by simp)

/-- Witness for C8: on an unloaded archive, `getFile` returns the
not-loaded pair rather than throwing. -/
theorem getFile_error_contract_witness :
    getFile (fun _ _ => .ok []) (fun _ => .error "inflate failed")
        ⟨false, [], [], []⟩ "data\\a.txt" =
      .ok ⟨none, some notLoadedMsg⟩ :=
  (getFile_error_contract (fun _ _ => .ok []) (fun _ => .error "inflate failed")
    ⟨false, [], [], []⟩ "data\\a.txt").1 rfl

/-! ## Stored (uncompressed) entries and alignment padding (C1)

When `realSize === compressedSize`, `decodeEntry` returns `data` — the
whole buffer of `lengthAligned` read-and-deciphered bytes — without
slicing it down to `compressedSize` bytes. -/

/-- A stored entry whose aligned length exceeds its compressed size:
type 1 (plain file, no cipher bits), 1 payload byte padded to one 8-byte
block. -/
def entryStored : TFileEntry :=
  { type := 1, offset := 0, realSize := 1, compressedSize := 1,
    lengthAligned := 8 }

/-- A loaded archive holding only `entryStored` under the name `f`. -/
def stStored : GrfState :=
  { loaded := true
    files := [("f", entryStored)]
    normalizedIndex := [("f", ["f"])]
    cache := [] }

/-- The 8 bytes the source returns for the entry (1 payload byte plus 7
alignment padding bytes). -/
def payloadStored : List Nat := [10, 20, 30, 40, 50, 60, 70, 80]

/-- Counterexample to C8 as stated ("getFile never throws: for every
query it returns a `{data, error}` pair"): on the loaded archive
`stStored`, with a source whose read fails, `getFile "f"` resolves the
entry, misses the cache, issues the payload read outside the `try`
block, and the read error propagates: the result is an exception
(`Except.error`), not a `{data, error}` pair. -/
theorem getFile_throws_on_read_error_cex :
    getFile (fun _ _ => .error "unexpected EOF")
        (fun _ => .error "inflate failed") stStored "f" =
      .error "unexpected EOF" ∧
      (getFile (fun _ _ => .error "unexpected EOF")
        (fun _ => .error "inflate failed") stStored "f").isOk = false :=
  ⟨rfl, rfl⟩

/-- Counterexample to C1: for this loaded entry with
`real_size = compressed_size = 1` and `length_aligned = 8`, `getFile`
returns all 8 read bytes, which differ from the first `compressed_size`
bytes of the payload — the trailing alignment padding is not
discarded. -/
theorem getFile_keeps_padding_cex :
    getFile (fun _ _ => .ok payloadStored) (fun _ => .error "inflate failed")
        stStored "f" = .ok ⟨some payloadStored, none⟩ ∧
      payloadStored ≠ payloadStored.take entryStored.compressedSize := by
  exact ⟨rfl, by decide⟩

/-- C1 as amended: for every loaded entry with
`real_size = compressed_size`, `getFile` returns the entire
read-and-deciphered payload of `length_aligned` bytes; the trailing
alignment padding is returned verbatim, not discarded (so the result is
the first `compressed_size` bytes only when
`length_aligned = compressed_size`). -/
theorem getFile_stored_returns_whole_payload
    (read : Nat → Nat → Except String (List Nat))
    (inflate : List Nat → Except String (List Nat))
    (st : GrfState) (q path : String) (entry : TFileEntry) (data : List Nat)
    (h : st.loaded = true)
    (hr : resolvePath st q = .found path)
    (hc : st.cache.lookup path = none)
    (hf : st.files.lookup path = some entry)
    (hread : read (entry.offset + HEADER_SIZE) entry.lengthAligned = .ok data)
    (hstored : entry.realSize = entry.compressedSize) :
    getFile read inflate st q = .ok ⟨some (decipherStage data entry), none⟩ := by
  rw [getFile, h]
  simp only [Bool.true_eq_false, if_false, hr, hc, hf, hread]
  rw [decodeEntry]
  simp [hstored]

/-- Witness for the amended C1 at the concrete stored entry: the whole
8-byte payload (here untouched by the cipher stage, type bit 1 only)
comes back. -/
theorem getFile_stored_returns_whole_payload_witness :
    getFile (fun _ _ => .ok payloadStored) (fun _ => .error "inflate failed")
        stStored "f" = .ok ⟨some (decipherStage payloadStored entryStored), none⟩ ∧
      decipherStage payloadStored entryStored = payloadStored :=
  ⟨getFile_stored_returns_whole_payload (fun _ _ => .ok payloadStored)
      (fun _ => .error "inflate failed") stStored "f" "f" entryStored
      payloadStored rfl (by decide) rfl rfl rfl rfl,
    by decide⟩

/-! ## Filename-encoding auto-detection
(`detectBestKoreanEncoding` of `decoder.ts`)

The text decoders behind `tryDecodeWithQuality` (UTF-8 / CP949 via
iconv-lite or `TextDecoder`) are external capabilities; they enter the
model as oracles `utf8Bad` / `cp949Bad` giving the bad-character count
(`U+FFFD` replacements plus C1 controls) of decoding a byte sequence. -/

/-- The detector's result type (`'utf-8' | 'cp949'`). -/
inductive DetectedEncoding where
  | utf8
  | cp949
  deriving DecidableEq, Repr

/-- `bytes.some(b => b > 0x7F)`. -/
def hasHighByte (bytes : List Nat) : Bool := bytes.any (fun b => 0x7F < b)

/-- The samples that are not skipped by the loop (those containing a
non-ASCII byte); the loop's four accumulators are the length of this
list, the sum of its byte lengths, and the two bad-count sums over it. -/
def highSamples (samples : List (List Nat)) : List (List Nat) :=
  samples.filter hasHighByte

/-- `utf8BadTotal / totalBytes` (0 when no bytes were counted), as an
exact rational in place of the JS float. -/
def badRatioOf (bad : List Nat → Nat) (samples : List (List Nat)) : ℚ :=
  let totalBytes := ((highSamples samples).map List.length).sum
  if 0 < totalBytes then
    (((highSamples samples).map bad).sum : ℚ) / (totalBytes : ℚ)
  else 0

/-- `detectBestKoreanEncoding(sampleBytes, threshold)`: skip pure-ASCII
samples while accumulating bad counts and byte totals; pure-ASCII sample
sets (and the empty set) give UTF-8; otherwise UTF-8 when its bad ratio
is under the threshold, else CP949 when strictly better, else UTF-8. -/
def detectBestKoreanEncoding (utf8Bad cp949Bad : List Nat → Nat)
    (sampleBytes : List (List Nat)) (threshold : ℚ) : DetectedEncoding :=
  if sampleBytes.isEmpty then .utf8
  else
    let samplesWithHighBytes := (highSamples sampleBytes).length
    if samplesWithHighBytes = 0 then .utf8
    else
      let utf8BadRatio := badRatioOf utf8Bad sampleBytes
      let cp949BadRatio := badRatioOf cp949Bad sampleBytes
      if utf8BadRatio < threshold then .utf8
      else if cp949BadRatio < utf8BadRatio then .cp949
      else .utf8

/-- The default `threshold` argument (and the loader's
`DEFAULT_AUTO_DETECT_THRESHOLD`): 0.01. -/
def defaultAutoDetectThreshold : ℚ := 1 / 100

/-- Claim-side decision procedure, following the claim's order: a sample
set with no byte above 0x7F yields UTF-8; otherwise UTF-8 when the UTF-8
bad-character ratio is below the threshold; otherwise CP949 when its
bad-character ratio is strictly smaller than the UTF-8 one; otherwise
UTF-8. -/
def detectClaim (utf8Bad cp949Bad : List Nat → Nat)
    (sampleBytes : List (List Nat)) (threshold : ℚ) : DetectedEncoding :=
  if ∀ s ∈ sampleBytes, ∀ b ∈ s, b ≤ 0x7F then .utf8
  else if badRatioOf utf8Bad sampleBytes < threshold then .utf8
  else if badRatioOf cp949Bad sampleBytes < badRatioOf utf8Bad sampleBytes
    then .cp949
  else .utf8

/-- Pure ASCII means no sample survives the high-byte filter. -/
theorem highSamples_eq_nil_iff (samples : List (List Nat)) :
    highSamples samples = [] ↔ ∀ s ∈ samples, ∀ b ∈ s, b ≤ 0x7F := by
  unfold highSamples
  rw [List.filter_eq_nil_iff]
  constructor
  · intro h s hs b hb
    by_contra hgt
    exact h s hs (by
      unfold hasHighByte
      rw [List.any_eq_true]
      exact ⟨b, hb, by simpa using Nat.lt_of_not_le hgt⟩)
  · intro h s hs hhigh
    unfold hasHighByte at hhigh
    rw [List.any_eq_true] at hhigh
    obtain ⟨b, hb, hgt⟩ := hhigh
    exact absurd (h s hs b hb) (by simpa using hgt)

/-- C7: the auto-detector is deterministic and follows the claimed
decision order: pure-ASCII sample sets always give UTF-8; otherwise
UTF-8 when the UTF-8 bad-character ratio is below the threshold, else
CP949 exactly when its ratio is strictly smaller, else UTF-8 — and the
default threshold is 0.01. -/
theorem detectBestKoreanEncoding_matches_claim :
    (∀ (utf8Bad cp949Bad : List Nat → Nat) (sampleBytes : List (List Nat))
        (threshold : ℚ),
        detectBestKoreanEncoding utf8Bad cp949Bad sampleBytes threshold =
          detectClaim utf8Bad cp949Bad sampleBytes threshold) ∧
      defaultAutoDetectThreshold = 1 / 100 := by
  refine ⟨fun utf8Bad cp949Bad sampleBytes threshold => ?_, rfl⟩
  unfold detectBestKoreanEncoding detectClaim
  by_cases hascii : ∀ s ∈ sampleBytes, ∀ b ∈ s, b ≤ 0x7F
  · rw [if_pos hascii]
    have hnil : highSamples sampleBytes = [] :=
      (highSamples_eq_nil_iff sampleBytes).mpr hascii
    by_cases hempty : sampleBytes.isEmpty
    · rw [if_pos hempty]
    · rw [if_neg hempty]
      simp [hnil]
  · rw [if_neg hascii]
    have hnonnil : highSamples sampleBytes ≠ [] :=
      fun h => hascii ((highSamples_eq_nil_iff sampleBytes).mp h)
    have hempty : ¬ sampleBytes.isEmpty := by
      intro h
      rw [List.isEmpty_iff] at h
      exact hnonnil (by simp [highSamples, h])
    rw [if_neg hempty]
    simp only [if_neg (fun h => hnonnil (List.length_eq_zero.mp h))]

/-! ## Statistics snapshot (`getStats` of `grf-base.ts`)

`getStats` returns `{ ...this._stats, extensionStats: new Map(...) }`:
the scalar fields are copied by the spread and the `Map` is a freshly
allocated copy.  To state the aliasing consequence, JS `Map` objects live
in an explicit store: a stats record holds a reference (an index into the
store) and `getStats` allocates a new reference whose contents copy the
internal one. -/

/-- The store of live `Map<string, number>` objects; a reference is an
index into `maps`. -/
structure ExtMapStore where
  maps : List (List (String × Nat))
  deriving DecidableEq, Repr

/-- The contents behind a map reference. -/
def mapContents (store : ExtMapStore) (r : Nat) : List (String × Nat) :=
  store.maps.getD r []

/-- `new Map(existing)`: allocate a fresh reference holding a copy of the
contents of `r`.  The fresh reference is the next unused index. -/
def allocCopy (store : ExtMapStore) (r : Nat) : ExtMapStore × Nat :=
  (⟨store.maps ++ [mapContents store r]⟩, store.maps.length)

/-- `map.set(k, v)` on the map behind `r`: overwrite the binding of `k`
if present, append it otherwise. -/
def mapSet (store : ExtMapStore) (r : Nat) (k : String) (v : Nat) :
    ExtMapStore :=
  let m := mapContents store r
  let m2 := if m.any (fun p => p.1 == k)
    then m.map (fun p => if p.1 == k then (k, v) else p)
    else m ++ [(k, v)]
  ⟨store.maps.set r m2⟩

/-- `map.clear()` on the map behind `r`. -/
def mapClear (store : ExtMapStore) (r : Nat) : ExtMapStore :=
  ⟨store.maps.set r []⟩

/-- `GrfStats`: scalar counters plus a reference to the extension-stats
map and the detected encoding. -/
structure GrfStats where
  fileCount : Nat
  badNameCount : Nat
  collisionCount : Nat
  extensionStats : Nat
  detectedEncoding : DetectedEncoding
  deriving DecidableEq, Repr

/-- `getStats()`: copy the scalar fields and allocate a fresh copied map
(`{ ...this._stats, extensionStats: new Map(this._stats.extensionStats) }`).
Returns the grown store and the returned stats object. -/
def getStats (store : ExtMapStore) (internal : GrfStats) :
    ExtMapStore × GrfStats :=
  let alloc := allocCopy store internal.extensionStats
  (alloc.1, { internal with extensionStats := alloc.2 })

/-- Writing behind one reference does not change the contents behind a
different reference. -/
theorem mapContents_mapSet_ne (store : ExtMapStore) (r r2 : Nat)
    (k : String) (v : Nat) (hne : r2 ≠ r) :
    mapContents (mapSet store r2 k v) r = mapContents store r := by
  unfold mapContents mapSet
  simp only
  rw [List.getD_eq_getElem?_getD, List.getElem?_set_ne hne,
    ← List.getD_eq_getElem?_getD]

/-- Clearing behind one reference does not change the contents behind a
different reference. -/
theorem mapContents_mapClear_ne (store : ExtMapStore) (r r2 : Nat)
    (hne : r2 ≠ r) :
    mapContents (mapClear store r2) r = mapContents store r := by
  unfold mapContents mapClear
  simp only
  rw [List.getD_eq_getElem?_getD, List.getElem?_set_ne hne,
    ← List.getD_eq_getElem?_getD]

/-- C10: `getStats` returns a snapshot.  With a valid internal map
reference, the returned object carries a fresh map reference with equal
contents and the internal scalar values; inserting into or clearing the
returned map leaves the internal map's contents unchanged, and a later
`getStats` call (after such a mutation) still reports the original
contents and scalar values. -/
theorem getStats_snapshot (store : ExtMapStore) (internal : GrfStats)
    (hvalid : internal.extensionStats < store.maps.length) :
    ((getStats store internal).2.extensionStats ≠ internal.extensionStats)
    ∧ ((getStats store internal).2.fileCount = internal.fileCount
        ∧ (getStats store internal).2.badNameCount = internal.badNameCount
        ∧ (getStats store internal).2.collisionCount = internal.collisionCount
        ∧ (getStats store internal).2.detectedEncoding = internal.detectedEncoding)
    ∧ (mapContents (getStats store internal).1
          (getStats store internal).2.extensionStats =
        mapContents store internal.extensionStats)
    ∧ (∀ k v,
        mapContents (mapSet (getStats store internal).1
            (getStats store internal).2.extensionStats k v)
          internal.extensionStats =
        mapContents store internal.extensionStats)
    ∧ (mapContents (mapClear (getStats store internal).1
            (getStats store internal).2.extensionStats)
          internal.extensionStats =
        mapContents store internal.extensionStats)
    ∧ (∀ k v,
        mapContents
            (getStats (mapSet (getStats store internal).1
              (getStats store internal).2.extensionStats k v) internal).1
            (getStats (mapSet (getStats store internal).1
              (getStats store internal).2.extensionStats k v) internal).2.extensionStats =
          mapContents store internal.extensionStats) := by
  have hfresh : (getStats store internal).2.extensionStats =
      store.maps.length := rfl
  have hne : internal.extensionStats ≠ store.maps.length := Nat.ne_of_lt hvalid
  have hcontents : mapContents (getStats store internal).1
      internal.extensionStats = mapContents store internal.extensionStats := by
    unfold getStats allocCopy mapContents
    simp only
    rw [List.getD_eq_getElem?_getD, List.getElem?_append_left hvalid,
      ← List.getD_eq_getElem?_getD]
  have hcopy : mapContents (getStats store internal).1
      (getStats store internal).2.extensionStats =
      mapContents store internal.extensionStats := by
    rw [hfresh]
    unfold getStats allocCopy mapContents
    simp only
    rw [List.getD_eq_getElem?_getD, List.getElem?_append_right (le_refl _)]
    simp
  refine ⟨by rw [hfresh]; exact hne.symm, ⟨rfl, rfl, rfl, rfl⟩, hcopy,
    fun k v => ?_, ?_, fun k v => ?_⟩
  · rw [mapContents_mapSet_ne _ _ _ _ _ (by rw [hfresh]; exact hne.symm),
      hcontents]
  · rw [mapContents_mapClear_ne _ _ _ (by rw [hfresh]; exact hne.symm),
      hcontents]
  · set store2 := mapSet (getStats store internal).1
      (getStats store internal).2.extensionStats k v with hstore2
    have hlen2 : internal.extensionStats < store2.maps.length := by
      rw [hstore2]
      unfold mapSet getStats allocCopy
      simp only [List.length_set, List.length_append]
      omega
    have hsecond : mapContents (getStats store2 internal).1
        (getStats store2 internal).2.extensionStats =
        mapContents store2 internal.extensionStats := by
      have : (getStats store2 internal).2.extensionStats =
          store2.maps.length := rfl
      rw [this]
      unfold getStats allocCopy mapContents
      simp only
      rw [List.getD_eq_getElem?_getD, List.getElem?_append_right (le_refl _)]
      simp
    rw [hsecond, hstore2,
      mapContents_mapSet_ne _ _ _ _ _ (by rw [hfresh]; exact hne.symm),
      hcontents]

/-- Witness for C10 at a one-map store: the snapshot is independent of
the internal map. -/
theorem getStats_snapshot_witness :
    (getStats ⟨[[("spr", 3)]]⟩ ⟨6, 0, 0, 0, .utf8⟩).2.extensionStats ≠ 0 ∧
      mapContents (mapSet (getStats ⟨[[("spr", 3)]]⟩ ⟨6, 0, 0, 0, .utf8⟩).1
          (getStats ⟨[[("spr", 3)]]⟩ ⟨6, 0, 0, 0, .utf8⟩).2.extensionStats
          "act" 1) 0 =
        [("spr", 3)] :=
  ⟨(getStats_snapshot ⟨[[("spr", 3)]]⟩ ⟨6, 0, 0, 0, .utf8⟩ (by decide)).1,
    by
      have h := (getStats_snapshot ⟨[[("spr", 3)]]⟩ ⟨6, 0, 0, 0, .utf8⟩
        (by decide)).2.2.2.1 "act" 1
      simpa using h⟩

end GrfLoader
